import Mathlib

/-!
Shallow embedding of the MoodWatch pulse pipeline
(`app/openface_pulse.py`, `app/camera_schedule.py`).

Python floats are modelled as exact rationals (ℚ); dictionaries holding
heterogeneous values are modelled by `PyVal`; a per-frame row of the raw
OpenFace table is a partial map from channel name to value.
-/

namespace MoodWatch

/-- A Python value stored in a summary dict / CSV row: a float, an int,
or a string. -/
inductive PyVal : Type
  | num : ℚ → PyVal
  | int : ℤ → PyVal
  | str : String → PyVal
deriving DecidableEq, Repr

/-- A pulse summary: an insertion-ordered dict from key to value,
as built by `_summarize_csv`. -/
abbrev Summary := List (String × PyVal)

/-- Numeric coercion used where Python arithmetic consumes a dict value
(`s.get(k, 0.0)`); the pipeline only stores numbers at those keys. -/
def PyVal.toQ : PyVal → ℚ
  | .num q => q
  | .int n => (n : ℚ)
  | .str _ => 0

/-- Dict lookup (`s.get(k)` / `k in s`): first binding wins, so a binding
consed at the front models a dict update. -/
def dget : List (String × PyVal) → String → Option PyVal
  | [], _ => none
  | (a, v) :: rest, k => if k = a then some v else dget rest k

/-- `s.get(k, 0.0)` from `_classify_expression`. -/
def AU (s : Summary) (k : String) : ℚ :=
  match dget s k with
  | some v => v.toQ
  | none => 0

/-! ## ExpressionClassifier (`OpenFacePulse._classify_expression`) -/

/-- Python `min(a, b)`: returns `a` unless `b` is strictly smaller. -/
def pymin (a b : ℚ) : ℚ := if b < a then b else a

/-- Python `max(a, b)`: returns `a` unless `b` is strictly greater. -/
def pymax (a b : ℚ) : ℚ := if a < b then b else a

/-- Happy score before clamping: `max(0, AU12 - 0.5*AU04)` plus a `0.2`
boost when `AU12 > 0.30 and AU06 > 0.15`. -/
def score_happy (s : Summary) : ℚ :=
  let base := pymax 0 (AU s "AU12_r" - 0.5 * AU s "AU04_r")
  if 0.30 < AU s "AU12_r" ∧ 0.15 < AU s "AU06_r" then base + 0.2 else base

/-- Sad score before clamping. -/
def score_sad (s : Summary) : ℚ :=
  pymax 0 (0.5 * (AU s "AU01_r" + AU s "AU04_r") + AU s "AU15_r" - 0.5 * AU s "AU12_r")

/-- Anger score before clamping, with the `AU23 > 0.25` boost. -/
def score_anger (s : Summary) : ℚ :=
  let base := pymax 0 (AU s "AU04_r" + 0.5 * AU s "AU07_r" - 0.5 * AU s "AU12_r")
  if 0.25 < AU s "AU23_r" then base + 0.1 else base

/-- Surprise score before clamping. -/
def score_surprise (s : Summary) : ℚ :=
  pymax 0 (0.5 * (AU s "AU01_r" + AU s "AU02_r") + AU s "AU26_r")

/-- Disgust score before clamping. -/
def score_disgust (s : Summary) : ℚ :=
  pymax 0 (AU s "AU09_r" + AU s "AU10_r" - 0.3 * AU s "AU12_r")

/-- Neutral score before clamping. -/
def score_neutral (s : Summary) : ℚ :=
  pymax 0 (1 - (AU s "AU12_r" + AU s "AU04_r" + AU s "AU26_r"))

/-- The `candidates` list, in the source's fixed evaluation order, each
score clamped by `min(1.0, ·)`. -/
def candidates (s : Summary) : List (String × ℚ) :=
  [("happy", pymin 1 (score_happy s)),
   ("sad", pymin 1 (score_sad s)),
   ("anger", pymin 1 (score_anger s)),
   ("surprise", pymin 1 (score_surprise s)),
   ("disgust", pymin 1 (score_disgust s)),
   ("neutral", pymin 1 (score_neutral s))]

/-- Python's `max(iterable, key=...)` starting from accumulator `b`:
a later element replaces the current best only when strictly greater,
so the first maximum wins. -/
def pickBest : (String × ℚ) → List (String × ℚ) → String × ℚ
  | b, [] => b
  | b, c :: cs => pickBest (if b.2 < c.2 then c else b) cs

/-- `OpenFacePulse._classify_expression`: arg-max over the six candidates,
first maximum wins. -/
def classify_expression (s : Summary) : String × ℚ :=
  match candidates s with
  | [] => ("neutral", 0)
  | c :: cs => pickBest c cs

/-- The fixed six-label set, in evaluation order. -/
def labels : List String :=
  ["happy", "sad", "anger", "surprise", "disgust", "neutral"]

/-! ## SummaryReducer (`OpenFacePulse._summarize_csv`) -/

/-- A row of the raw OpenFace table: a channel is either present with a
numeric value or empty/absent (`row.get(k, "") == ""`). -/
abbrev Row := String → Option ℚ

/-- The fixed AU channel list of `_summarize_csv`. -/
def aus : List String :=
  ["AU01_r", "AU02_r", "AU04_r", "AU06_r", "AU07_r", "AU09_r", "AU10_r",
   "AU12_r", "AU14_r", "AU15_r", "AU17_r", "AU20_r", "AU23_r", "AU25_r",
   "AU26_r", "AU45_c"]

/-- The pose channel list of `_summarize_csv`. -/
def pose : List String := ["pose_Rx", "pose_Ry", "pose_Rz"]

/-- `series[k]`: the non-empty values of channel `k`, in row order. -/
def collect (table : List Row) (k : String) : List ℚ :=
  table.filterMap (fun r => r k)

/-- `sum(xs)/len(xs) if xs else 0.0`. -/
def mean (xs : List ℚ) : ℚ :=
  if xs = [] then 0 else xs.sum / (xs.length : ℚ)

/-- `max(0.001, t_end - t_start) if t_start else 0.0`. -/
def durS (tStart : Option ℚ) (tEnd : ℚ) : ℚ :=
  match tStart with
  | some t => pymax 0.001 (tEnd - t)
  | none => 0

/-- `OpenFacePulse._summarize_csv` applied to an already-parsed table:
returns `{}` on a zero-row table, otherwise the per-channel means followed
by the derived proxies, `frames` and `dur_s`, in insertion order. -/
def summarize_csv (tStart : Option ℚ) (tEnd : ℚ) (table : List Row) : Summary :=
  if table.length = 0 then []
  else
    ((aus ++ pose).map (fun k => (k, PyVal.num (mean (collect table k)))))
    ++ [("avg_smile", .num (mean (collect table "AU12_r"))),
        ("avg_furrow", .num (mean (collect table "AU04_r"))),
        ("avg_mouthop", .num (mean (collect table "AU26_r"))),
        ("valence_proxy",
          .num (mean (collect table "AU12_r") - mean (collect table "AU04_r"))),
        ("arousal_proxy",
          .num (mean (collect table "AU25_r") + mean (collect table "AU26_r")
                + mean (collect table "AU45_c"))),
        ("frames", .int (table.length : ℤ)),
        ("dur_s", .num (durS tStart tEnd))]

/-! ## Scheduler arithmetic (`camera_schedule.next_start_after`) -/

/-- `MIN_LEAD = 0.2`. -/
def MIN_LEAD : ℚ := 0.2

/-- `camera_schedule.next_start_after`. -/
def next_start_after (anchor gap now : ℚ) : ℚ :=
  let start :=
    if now < anchor then anchor
    else anchor + ((⌊(now - anchor) / gap⌋ + 1 : ℤ) : ℚ) * gap
  if start < now + MIN_LEAD then start + gap else start

/-! ## SessionLog (`OpenFacePulse._append_session_row`) -/

/-- The fixed header of `session_summary.csv`. -/
def header : List String :=
  ["ts", "session_id", "dur_s", "frames",
   "AU01_r", "AU02_r", "AU04_r", "AU06_r", "AU12_r", "AU15_r", "AU20_r",
   "AU25_r", "AU26_r", "AU45_c",
   "pose_Rx", "pose_Ry", "pose_Rz",
   "avg_smile", "avg_furrow", "avg_mouthop", "blink_presence_mean",
   "expr", "expr_score", "src_csv"]

/-- Python `round(q, d)`: round half to even at `d` decimal digits. -/
def pyRound (d : ℕ) (q : ℚ) : ℚ :=
  let m : ℚ := q * (10 ^ d : ℕ)
  let f : ℤ := ⌊m⌋
  let r : ℚ := m - (f : ℚ)
  let n : ℤ :=
    if r < 1/2 then f
    else if 1/2 < r then f + 1
    else if 2 ∣ f then f else f + 1
  (n : ℚ) / (10 ^ d : ℕ)

/-- `round(summary[k], 6) if isinstance(summary[k], float) else summary[k]`. -/
def roundVal : PyVal → PyVal
  | .num q => .num (pyRound 6 q)
  | v => v

/-- Python `int(·)` on a summary value (truncation toward zero). -/
def pyInt : PyVal → ℤ
  | .int n => n
  | .num q => if q < 0 then ⌈q⌉ else ⌊q⌋
  | .str _ => 0

/-- The `row` dict built by `_append_session_row`, as a total lookup
function: the header-keyed copies of summary values (rounded to 6 digits
for floats) override the base fields, which hold `ts`, `session_id`,
`dur_s` rounded to 3 digits, the integer frame count and `src_csv`. -/
def buildRow (sid ts src : String) (s : Summary) : String → Option PyVal :=
  fun k =>
    if k ∈ header ∧ (dget s k).isSome then (dget s k).map roundVal
    else if k = "ts" then some (.str ts)
    else if k = "session_id" then some (.str sid)
    else if k = "dur_s" then
      some (.num (pyRound 3 (((dget s "dur_s").map PyVal.toQ).getD 0)))
    else if k = "frames" then
      some (.int (match dget s "frames" with | some v => pyInt v | none => 0))
    else if k = "src_csv" then some (.str src)
    else none

/-- `csv.DictWriter.writerow`: one cell per header column, in header
order; a column the row dict lacks is written empty (`none`). -/
def renderRow (row : String → Option PyVal) : List (Option PyVal) :=
  header.map row

/-- The header line written by `writeheader`. -/
def headerCells : List (Option PyVal) :=
  header.map (fun h => some (.str h))

/-- The session log file: `none` models an absent file, `some rows` the
sequence of physical CSV lines already written. -/
abbrev LogFile := Option (List (List (Option PyVal)))

/-- `OpenFacePulse._append_session_row`: on an absent file write the
header then the row; otherwise append the one row after the existing
lines. -/
def append_session_row (file : LogFile) (sid ts src : String) (s : Summary) :
    List (List (Option PyVal)) :=
  match file with
  | none => [headerCells, renderRow (buildRow sid ts src s)]
  | some rs => rs ++ [renderRow (buildRow sid ts src s)]

/-- Repeated `_append_session_row` calls: each item holds the session
id, timestamp, source-CSV path and summary of one later pulse. -/
def append_many (file : LogFile)
    (items : List (String × String × String × Summary)) : LogFile :=
  items.foldl
    (fun f i => some (append_session_row f i.1 i.2.1 i.2.2.1 i.2.2.2)) file

/-! ## `OpenFacePulse.finish` after the video writer is released -/

/-- Whether a value supports the `:.3f` format spec (`None` and strings
raise `TypeError`). -/
def fmtF : Option PyVal → Bool
  | some (.num _) => true
  | some (.int _) => true
  | _ => false

/-- The DEBUG print in `finish` formats `dur_s`, `AU12_r`, `AU04_r` and
`AU26_r` with `:.3f`; it raises when any of them is absent. -/
def debugFmtOk (s : Summary) : Bool :=
  fmtF (dget s "dur_s") && fmtF (dget s "AU12_r")
    && fmtF (dget s "AU04_r") && fmtF (dget s "AU26_r")

/-- The inputs `finish` depends on once the writer has been released:
the external tool's exit status, whether an output CSV was found, the
parsed table, the recorded clock values, the `DEBUG` flag and the
session-log state. -/
structure FinishEnv where
  extractRet : ℤ
  csvFound : Bool
  table : List Row
  tStart : Option ℚ
  tEnd : ℚ
  debug : Bool
  sid : String
  ts : String
  src : String
  logFile : LogFile

/-- What a call to `finish` did: the returned summary or the propagated
exception, whether `self._tmpdir.cleanup()` ran, the session-log state
afterward, and whether a log row was appended. -/
structure FinishOut where
  result : Except String Summary
  tmpCleaned : Bool
  logFile : LogFile
  appended : Bool

/-- `OpenFacePulse.finish` from the point where the writer is released:
raise on a non-zero tool exit; raise when no CSV is found; otherwise
summarize, classify, store `expr`/`expr_score`, run the DEBUG print
(which raises on an empty summary), append the session row, and clean the
temporary directory only at the very end of this successful path. -/
def finish (e : FinishEnv) : FinishOut :=
  if e.extractRet ≠ 0 then
    ⟨.error "RuntimeError: OpenFace failed", false, e.logFile, false⟩
  else if !e.csvFound then
    ⟨.error "FileNotFoundError: No CSV found", false, e.logFile, false⟩
  else
    let s := summarize_csv e.tStart e.tEnd e.table
    let c := classify_expression s
    let s2 := s ++ [("expr", .str c.1), ("expr_score", .num c.2)]
    if e.debug && !debugFmtOk s2 then
      ⟨.error "TypeError: unsupported format string passed to NoneType", false,
        e.logFile, false⟩
    else
      ⟨.ok s2, true, some (append_session_row e.logFile e.sid e.ts e.src s2), true⟩

/-! ## Recording phase (`camera_schedule.run_preview`) and the outer loop -/

/-- How the capture loop ends: the wall-clock deadline, the quit key, or
an exception raised inside the loop body. -/
inductive LoopExit : Type
  | deadline
  | quit
  | raised
deriving DecidableEq, Repr

/-- Which loop exit happens first, given the iteration (if any) at which
an exception is raised and the iteration (if any) at which the quit key
is seen; within one iteration the body runs (and can raise) before the
key check. -/
def loopExit (dl : ℕ) (raiseAt quitAt : Option ℕ) : LoopExit :=
  match raiseAt, quitAt with
  | none, none => .deadline
  | some r, none => if r < dl then .raised else .deadline
  | none, some q => if q < dl then .quit else .deadline
  | some r, some q =>
    if r < dl ∧ r ≤ q then .raised
    else if q < dl ∧ q < r then .quit
    else .deadline

/-- The environment a `run_preview` call runs against. -/
structure PreviewEnv where
  camOpens : Bool
  pulseStartOk : Bool
  deadlineIters : ℕ
  raiseAt : Option ℕ
  quitAt : Option ℕ
  duration : ℚ

/-- Observable outcome of `run_preview`: the returned boolean (`none`
when an exception propagates), how long it slept instead of recording,
how many times `cap.release()` ran, whether `pulse.finish()` was invoked,
and whether recording was attempted at all. -/
structure PreviewOut where
  ret : Option Bool
  sleptDur : ℚ
  releases : ℕ
  finishCalled : Bool
  recordingAttempted : Bool
deriving DecidableEq, Repr

/-- `camera_schedule.run_preview`. A failed camera open sleeps out the
duration and returns `True`. After a successful open, `pulse.start()`
runs before the `try` block, so a failure there propagates without
releasing the camera; once the `try` is entered, the `finally` releases
the camera and invokes `finish` on every exit. -/
def run_preview (e : PreviewEnv) : PreviewOut :=
  if !e.camOpens then
    ⟨some true, e.duration, 0, false, false⟩
  else if !e.pulseStartOk then
    ⟨none, 0, 0, false, true⟩
  else
    match loopExit e.deadlineIters e.raiseAt e.quitAt with
    | .deadline => ⟨some true, 0, 1, true, true⟩
    | .quit => ⟨some false, 0, 1, true, true⟩
    | .raised => ⟨none, 0, 1, true, true⟩

/-- What `main`'s outer loop does with the boolean returned by the
recording phase. -/
inductive SchedStep : Type
  | nextPulse
  | stopped
deriving DecidableEq, Repr

/-- `main`: `keep = run_preview(...)`; `if not keep: break`. -/
def schedule_step (keep : Bool) : SchedStep :=
  if keep then .nextPulse else .stopped

/-! ## Helper lemmas -/

theorem dget_append (l1 l2 : Summary) (k : String) :
    dget (l1 ++ l2) k =
      match dget l1 k with
      | some v => some v
      | none => dget l2 k := by
  induction l1 with
  | nil => simp [dget]
  | cons a l ih =>
    obtain ⟨ka, va⟩ := a
    by_cases h : k = ka
    · simp [dget, h]
    · simp only [List.cons_append, dget, if_neg h]
      exact ih

theorem dget_map_mem (l : List String) (f : String → PyVal) (k : String)
    (hk : k ∈ l) :
    dget (l.map (fun a => (a, f a))) k = some (f k) := by
  induction l with
  | nil => cases hk
  | cons a l ih =>
    by_cases h : k = a
    · subst h; simp [dget]
    · have : k ∈ l := by
        rcases List.mem_cons.mp hk with h' | h'
        · exact absurd h' h
        · exact h'
      simp only [List.map_cons, dget, if_neg h]
      exact ih this

theorem dget_map_not_mem (l : List String) (f : String → PyVal) (k : String)
    (hk : k ∉ l) :
    dget (l.map (fun a => (a, f a))) k = none := by
  induction l with
  | nil => rfl
  | cons a l ih =>
    have h : ¬ k = a := fun h => hk (h ▸ List.mem_cons_self a l)
    simp only [List.map_cons, dget, if_neg h]
    exact ih (fun h' => hk (List.mem_cons_of_mem a h'))

theorem dget_map_append_mem (l : List String) (f : String → PyVal)
    (rest : Summary) (k : String) (hk : k ∈ l) :
    dget ((l.map fun a => (a, f a)) ++ rest) k = some (f k) := by
  simp [dget_append, dget_map_mem l f k hk]

theorem dget_map_append_not_mem (l : List String) (f : String → PyVal)
    (rest : Summary) (k : String) (hk : k ∉ l) :
    dget ((l.map fun a => (a, f a)) ++ rest) k = dget rest k := by
  simp [dget_append, dget_map_not_mem l f k hk]

theorem dget_summarize_none (tS : Option ℚ) (tE : ℚ) (table : List Row)
    (k : String) (h1 : k ∉ aus ++ pose)
    (h2 : k ∉ (["avg_smile", "avg_furrow", "avg_mouthop", "valence_proxy",
      "arousal_proxy", "frames", "dur_s"] : List String)) :
    dget (summarize_csv tS tE table) k = none := by
  simp only [summarize_csv]
  split_ifs
  · rfl
  · rw [dget_map_append_not_mem _ _ _ _ h1]
    simp only [List.mem_cons, List.not_mem_nil, or_false] at h2
    push_neg at h2
    obtain ⟨n1, n2, n3, n4, n5, n6, n7⟩ := h2
    simp [dget, n1, n2, n3, n4, n5, n6, n7]

theorem AU_cons_ne (a k : String) (v : PyVal) (s : Summary) (h : ¬ k = a) :
    AU ((a, v) :: s) k = AU s k := by
  simp [AU, dget, h]

theorem candidates_cons_au14 (v : PyVal) (s : Summary) :
    candidates (("AU14_r", v) :: s) = candidates s := by
  simp +decide [candidates, score_happy, score_sad, score_anger,
    score_surprise, score_disgust, score_neutral, AU_cons_ne]

theorem candidates_cons_au17 (v : PyVal) (s : Summary) :
    candidates (("AU17_r", v) :: s) = candidates s := by
  simp +decide [candidates, score_happy, score_sad, score_anger,
    score_surprise, score_disgust, score_neutral, AU_cons_ne]

theorem classify_cons_eq (a : String) (v : PyVal) (s : Summary)
    (h : candidates ((a, v) :: s) = candidates s) :
    classify_expression ((a, v) :: s) = classify_expression s := by
  unfold classify_expression
  rw [h]

theorem append_many_some (items : List (String × String × String × Summary))
    (f : List (List (Option PyVal))) :
    append_many (some f) items =
      some (f ++ items.map
        (fun i => renderRow (buildRow i.1 i.2.1 i.2.2.1 i.2.2.2))) := by
  induction items generalizing f with
  | nil => simp [append_many]
  | cons i is ih =>
    have hstep : append_many (some f) (i :: is) =
        append_many (some (f ++ [renderRow (buildRow i.1 i.2.1 i.2.2.1 i.2.2.2)])) is := rfl
    rw [hstep, ih]
    simp

theorem pymax_left_le (a b : ℚ) : a ≤ pymax a b := by
  unfold pymax; split_ifs with h <;> linarith

theorem pymin_le_left (a b : ℚ) : pymin a b ≤ a := by
  unfold pymin; split_ifs with h <;> linarith

theorem pymin_nonneg (a b : ℚ) (ha : 0 ≤ a) (hb : 0 ≤ b) : 0 ≤ pymin a b := by
  unfold pymin; split_ifs <;> assumption

theorem score_happy_nonneg (s : Summary) : 0 ≤ score_happy s := by
  unfold score_happy
  have := pymax_left_le 0 (AU s "AU12_r" - 0.5 * AU s "AU04_r")
  split_ifs <;> linarith

theorem score_sad_nonneg (s : Summary) : 0 ≤ score_sad s :=
  pymax_left_le 0 _

theorem score_anger_nonneg (s : Summary) : 0 ≤ score_anger s := by
  unfold score_anger
  have := pymax_left_le 0 (AU s "AU04_r" + 0.5 * AU s "AU07_r" - 0.5 * AU s "AU12_r")
  split_ifs <;> linarith

theorem score_surprise_nonneg (s : Summary) : 0 ≤ score_surprise s :=
  pymax_left_le 0 _

theorem score_disgust_nonneg (s : Summary) : 0 ≤ score_disgust s :=
  pymax_left_le 0 _

theorem score_neutral_nonneg (s : Summary) : 0 ≤ score_neutral s :=
  pymax_left_le 0 _

theorem candidates_labels_and_bounds (s : Summary) :
    ∀ c ∈ candidates s, c.1 ∈ labels ∧ 0 ≤ c.2 ∧ c.2 ≤ 1 := by
  intro c hc
  have hb : ∀ x : ℚ, 0 ≤ x → (0 : ℚ) ≤ pymin 1 x ∧ pymin 1 x ≤ 1 :=
    fun x hx => ⟨pymin_nonneg 1 x (by norm_num) hx, pymin_le_left 1 x⟩
  simp only [candidates, List.mem_cons, List.not_mem_nil, or_false] at hc
  rcases hc with h | h | h | h | h | h <;> subst h
  · exact ⟨by simp [labels], (hb _ (score_happy_nonneg s)).1, (hb _ (score_happy_nonneg s)).2⟩
  · exact ⟨by simp [labels], (hb _ (score_sad_nonneg s)).1, (hb _ (score_sad_nonneg s)).2⟩
  · exact ⟨by simp [labels], (hb _ (score_anger_nonneg s)).1, (hb _ (score_anger_nonneg s)).2⟩
  · exact ⟨by simp [labels], (hb _ (score_surprise_nonneg s)).1, (hb _ (score_surprise_nonneg s)).2⟩
  · exact ⟨by simp [labels], (hb _ (score_disgust_nonneg s)).1, (hb _ (score_disgust_nonneg s)).2⟩
  · exact ⟨by simp [labels], (hb _ (score_neutral_nonneg s)).1, (hb _ (score_neutral_nonneg s)).2⟩

/-- `pickBest` returns the first element achieving the maximum: the list
splits into a strict-smaller prefix, the chosen element, and a
no-greater suffix. -/
theorem pickBest_split (cs : List (String × ℚ)) (b : String × ℚ) :
    ∃ l1 l2, b :: cs = l1 ++ pickBest b cs :: l2 ∧
      (∀ c ∈ l1, c.2 < (pickBest b cs).2) ∧
      (∀ c ∈ l2, c.2 ≤ (pickBest b cs).2) := by
  induction cs generalizing b with
  | nil => exact ⟨[], [], rfl, by simp, by simp⟩
  | cons c cs ih =>
    by_cases h : b.2 < c.2
    · have hpick : pickBest b (c :: cs) = pickBest c cs := by
        show pickBest (if b.2 < c.2 then c else b) cs = pickBest c cs
        rw [if_pos h]
      obtain ⟨l1, l2, heq, hlt, hle⟩ := ih c
      rw [hpick]
      cases l1 with
      | nil =>
        simp only [List.nil_append] at heq
        injection heq with h1 h2
        refine ⟨[b], l2, ?_, ?_, hle⟩
        · simp only [List.cons_append, List.nil_append]
          rw [← h1, ← h2]
        · intro x hx
          rcases List.mem_cons.mp hx with rfl | hx'
          · rw [← h1]; exact h
          · cases hx'
      | cons a l1t =>
        simp only [List.cons_append] at heq
        injection heq with h1 h2
        subst h1
        refine ⟨b :: c :: l1t, l2, ?_, ?_, hle⟩
        · simp only [List.cons_append]
          exact congrArg (List.cons b) (congrArg (List.cons c) h2)
        · intro x hx
          have hc2 : c.2 < (pickBest c cs).2 := hlt c (List.mem_cons_self _ _)
          rcases List.mem_cons.mp hx with rfl | hx'
          · linarith
          · rcases List.mem_cons.mp hx' with rfl | hx''
            · exact hc2
            · exact hlt x (List.mem_cons_of_mem _ hx'')
    · have hpick : pickBest b (c :: cs) = pickBest b cs := by
        show pickBest (if b.2 < c.2 then c else b) cs = pickBest b cs
        rw [if_neg h]
      obtain ⟨l1, l2, heq, hlt, hle⟩ := ih b
      rw [hpick]
      cases l1 with
      | nil =>
        simp only [List.nil_append] at heq
        injection heq with h1 h2
        refine ⟨[], c :: l2, ?_, by simp, ?_⟩
        · simp only [List.nil_append]
          rw [← h1, ← h2]
        · intro x hx
          rcases List.mem_cons.mp hx with rfl | hx'
          · rw [← h1]; exact le_of_not_lt h
          · exact hle x hx'
      | cons a l1t =>
        simp only [List.cons_append] at heq
        injection heq with h1 h2
        subst h1
        refine ⟨b :: c :: l1t, l2, ?_, ?_, hle⟩
        · simp only [List.cons_append]
          exact congrArg (List.cons b) (congrArg (List.cons c) h2)
        · intro x hx
          have hb2 : b.2 < (pickBest b cs).2 := hlt b (List.mem_cons_self _ _)
          rcases List.mem_cons.mp hx with rfl | hx'
          · exact hb2
          · rcases List.mem_cons.mp hx' with rfl | hx''
            · have hcb : x.2 ≤ b.2 := le_of_not_lt h
              linarith
            · exact hlt x (List.mem_cons_of_mem _ hx'')

/-! ## Claim theorems -/

/-- C4: for every feature vector, the expression classifier returns
exactly one label from \x7bhappy, sad, anger, surprise, disgust, neutral\x7d
with a score in [0, 1], chosen as the arg-max over the six clamped
candidate scores; exact ties are broken by the fixed evaluation order
(the candidate list splits into a strictly-smaller prefix before the
chosen entry and a no-greater suffix after it, so the first maximum
wins). Determinism holds because `classify_expression` is a function of
its argument. -/
theorem classifier_argmax_spec (s : Summary) :
    (classify_expression s).1 ∈ labels ∧
    0 ≤ (classify_expression s).2 ∧ (classify_expression s).2 ≤ 1 ∧
    ∃ l1 l2, candidates s = l1 ++ classify_expression s :: l2 ∧
      (∀ c ∈ l1, c.2 < (classify_expression s).2) ∧
      (∀ c ∈ l2, c.2 ≤ (classify_expression s).2) := by
  have hc : classify_expression s =
      pickBest ("happy", pymin 1 (score_happy s))
        [("sad", pymin 1 (score_sad s)),
         ("anger", pymin 1 (score_anger s)),
         ("surprise", pymin 1 (score_surprise s)),
         ("disgust", pymin 1 (score_disgust s)),
         ("neutral", pymin 1 (score_neutral s))] := rfl
  obtain ⟨l1, l2, heq, hlt, hle⟩ :=
    pickBest_split
      [("sad", pymin 1 (score_sad s)),
       ("anger", pymin 1 (score_anger s)),
       ("surprise", pymin 1 (score_surprise s)),
       ("disgust", pymin 1 (score_disgust s)),
       ("neutral", pymin 1 (score_neutral s))]
      ("happy", pymin 1 (score_happy s))
  have hcand : candidates s = l1 ++ classify_expression s :: l2 := by
    rw [hc]; exact heq
  have hmem : classify_expression s ∈ candidates s := by
    rw [hcand]; exact List.mem_append_right l1 (List.mem_cons_self _ _)
  obtain ⟨hl, hge0, hle1⟩ := candidates_labels_and_bounds s _ hmem
  refine ⟨hl, hge0, hle1, l1, l2, hcand, ?_, ?_⟩
  · intro c hcm; rw [hc]; exact hlt c hcm
  · intro c hcm; rw [hc]; exact hle c hcm

/-- C9: on the feature vector with AU12_r = 0.9, AU04_r = 0.1,
AU06_r = 0.8, AU25_r = 0.1, AU26_r = 0.0, AU45_c = 0.1 (all other
channels absent, hence 0.0), the classifier returns the label happy
(with the clamped score 1). -/
theorem classifier_happy_example :
    (classify_expression
      [("AU12_r", .num 0.9), ("AU04_r", .num 0.1), ("AU06_r", .num 0.8),
       ("AU25_r", .num 0.1), ("AU26_r", .num 0.0), ("AU45_c", .num 0.1)]).1
      = "happy" := by
  have h12 : AU
      [("AU12_r", .num 0.9), ("AU04_r", .num 0.1), ("AU06_r", .num 0.8),
       ("AU25_r", .num 0.1), ("AU26_r", .num 0.0), ("AU45_c", .num 0.1)]
      "AU12_r" = 0.9 := by
    simp +decide [AU, dget, PyVal.toQ]
  have h04 : AU
      [("AU12_r", .num 0.9), ("AU04_r", .num 0.1), ("AU06_r", .num 0.8),
       ("AU25_r", .num 0.1), ("AU26_r", .num 0.0), ("AU45_c", .num 0.1)]
      "AU04_r" = 0.1 := by
    simp +decide [AU, dget, PyVal.toQ]
  have h06 : AU
      [("AU12_r", .num 0.9), ("AU04_r", .num 0.1), ("AU06_r", .num 0.8),
       ("AU25_r", .num 0.1), ("AU26_r", .num 0.0), ("AU45_c", .num 0.1)]
      "AU06_r" = 0.8 := by
    simp +decide [AU, dget, PyVal.toQ]
  have hz : ∀ k ∈ ["AU01_r", "AU02_r", "AU07_r", "AU09_r", "AU10_r",
      "AU15_r", "AU23_r"], AU
      [("AU12_r", .num 0.9), ("AU04_r", .num 0.1), ("AU06_r", .num 0.8),
       ("AU25_r", .num 0.1), ("AU26_r", .num 0.0), ("AU45_c", .num 0.1)]
      k = 0 := by
    intro k hk
    fin_cases hk <;> simp +decide [AU, dget, PyVal.toQ]
  have h26 : AU
      [("AU12_r", .num 0.9), ("AU04_r", .num 0.1), ("AU06_r", .num 0.8),
       ("AU25_r", .num 0.1), ("AU26_r", .num 0.0), ("AU45_c", .num 0.1)]
      "AU26_r" = 0.0 := by
    simp +decide [AU, dget, PyVal.toQ]
  have hh : score_happy
      [("AU12_r", .num 0.9), ("AU04_r", .num 0.1), ("AU06_r", .num 0.8),
       ("AU25_r", .num 0.1), ("AU26_r", .num 0.0), ("AU45_c", .num 0.1)]
      = 1.05 := by
    rw [score_happy, h12, h04, h06]; norm_num [pymax]
  have hs : score_sad
      [("AU12_r", .num 0.9), ("AU04_r", .num 0.1), ("AU06_r", .num 0.8),
       ("AU25_r", .num 0.1), ("AU26_r", .num 0.0), ("AU45_c", .num 0.1)]
      = 0 := by
    rw [score_sad, hz "AU01_r" (by decide), h04, hz "AU15_r" (by decide), h12]
    norm_num [pymax]
  have ha : score_anger
      [("AU12_r", .num 0.9), ("AU04_r", .num 0.1), ("AU06_r", .num 0.8),
       ("AU25_r", .num 0.1), ("AU26_r", .num 0.0), ("AU45_c", .num 0.1)]
      = 0 := by
    rw [score_anger, h04, hz "AU07_r" (by decide), h12, hz "AU23_r" (by decide)]
    norm_num [pymax]
  have hu : score_surprise
      [("AU12_r", .num 0.9), ("AU04_r", .num 0.1), ("AU06_r", .num 0.8),
       ("AU25_r", .num 0.1), ("AU26_r", .num 0.0), ("AU45_c", .num 0.1)]
      = 0 := by
    rw [score_surprise, hz "AU01_r" (by decide), hz "AU02_r" (by decide), h26]
    norm_num [pymax]
  have hd : score_disgust
      [("AU12_r", .num 0.9), ("AU04_r", .num 0.1), ("AU06_r", .num 0.8),
       ("AU25_r", .num 0.1), ("AU26_r", .num 0.0), ("AU45_c", .num 0.1)]
      = 0 := by
    rw [score_disgust, hz "AU09_r" (by decide), hz "AU10_r" (by decide), h12]
    norm_num [pymax]
  have hn : score_neutral
      [("AU12_r", .num 0.9), ("AU04_r", .num 0.1), ("AU06_r", .num 0.8),
       ("AU25_r", .num 0.1), ("AU26_r", .num 0.0), ("AU45_c", .num 0.1)]
      = 0 := by
    rw [score_neutral, h12, h04, h26]; norm_num [pymax]
  rw [classify_expression, candidates, hh, hs, ha, hu, hd, hn]
  norm_num [pickBest, pymin]

/-- C7: when the camera device fails to open, `run_preview` sleeps out
the nominal pulse duration, never attempts recording, returns `True`
("continue", not abort), and `main`'s loop proceeds to the next pulse. -/
theorem device_failure_skips_pulse (ps : Bool) (dl : ℕ) (r q : Option ℕ)
    (d : ℚ) :
    run_preview ⟨false, ps, dl, r, q, d⟩ =
      ⟨some true, d, 0, false, false⟩ ∧
    schedule_step true = .nextPulse := ⟨rfl, rfl⟩

/-- C3 counterexample: the claim states `next_start_after(anchor, gap,
now) = anchor` whenever `now < anchor`, but for anchor 10, gap 5,
now 9.9 (which is within `MIN_LEAD = 0.2` of the anchor) the code pushes
the start one gap further and returns 15 ≠ 10. -/
theorem next_start_after_near_anchor_counterexample :
    (99 / 10 : ℚ) < 10 ∧ next_start_after 10 5 (99 / 10) = 15 ∧
      (15 : ℚ) ≠ 10 := by
  refine ⟨by norm_num, ?_, by norm_num⟩
  simp only [next_start_after, MIN_LEAD]
  norm_num

/-- C3 amended: with `0 < gap`, (1) for `now < anchor` the result is
`anchor`, unless `anchor < now + MIN_LEAD` in which case it is
`anchor + gap`; (2) for `anchor ≤ now` the code picks the smallest
`anchor + n·gap` (integer n ≥ 1) strictly greater than `now`, pushed one
further gap when it falls short of `now + MIN_LEAD`; (3) the result is
≥ `now + MIN_LEAD` provided `MIN_LEAD ≤ gap`; (4) the result is always
congruent to `anchor` modulo `gap`. -/
theorem next_start_after_grid_spec (anchor gap now : ℚ) (hg : 0 < gap) :
    (now < anchor →
      next_start_after anchor gap now =
        if anchor < now + MIN_LEAD then anchor + gap else anchor) ∧
    (anchor ≤ now →
      ∃ n : ℤ, 1 ≤ n ∧ now < anchor + (n : ℚ) * gap ∧
        (∀ k : ℤ, 1 ≤ k → now < anchor + (k : ℚ) * gap →
          anchor + (n : ℚ) * gap ≤ anchor + (k : ℚ) * gap) ∧
        next_start_after anchor gap now =
          if anchor + (n : ℚ) * gap < now + MIN_LEAD
          then anchor + (n : ℚ) * gap + gap
          else anchor + (n : ℚ) * gap) ∧
    (MIN_LEAD ≤ gap → now + MIN_LEAD ≤ next_start_after anchor gap now) ∧
    (∃ m : ℤ, next_start_after anchor gap now = anchor + (m : ℚ) * gap) := by
  have h1 : now < anchor →
      next_start_after anchor gap now =
        if anchor < now + MIN_LEAD then anchor + gap else anchor := by
    intro h
    simp only [next_start_after, if_pos h]
  have h2 : anchor ≤ now →
      next_start_after anchor gap now =
        if anchor + ((⌊(now - anchor) / gap⌋ + 1 : ℤ) : ℚ) * gap < now + MIN_LEAD
        then anchor + ((⌊(now - anchor) / gap⌋ + 1 : ℤ) : ℚ) * gap + gap
        else anchor + ((⌊(now - anchor) / gap⌋ + 1 : ℤ) : ℚ) * gap := by
    intro h
    simp only [next_start_after, if_neg (not_lt.mpr h)]
  have hgt : anchor ≤ now →
      now < anchor + ((⌊(now - anchor) / gap⌋ + 1 : ℤ) : ℚ) * gap := by
    intro h
    have hlt : (now - anchor) / gap < ((⌊(now - anchor) / gap⌋ + 1 : ℤ) : ℚ) := by
      push_cast
      exact Int.lt_floor_add_one _
    have := (div_lt_iff hg).mp hlt
    linarith
  refine ⟨h1, ?_, ?_, ?_⟩
  · intro h
    refine ⟨⌊(now - anchor) / gap⌋ + 1, ?_, hgt h, ?_, h2 h⟩
    · have hd : 0 ≤ (now - anchor) / gap :=
        div_nonneg (by linarith) hg.le
      have := Int.floor_nonneg.mpr hd
      omega
    · intro k _ hk
      have hklt : (now - anchor) / gap < (k : ℚ) := by
        rw [div_lt_iff hg]
        linarith
      have hfk : ⌊(now - anchor) / gap⌋ < k := Int.floor_lt.mpr hklt
      have hcast : ((⌊(now - anchor) / gap⌋ + 1 : ℤ) : ℚ) ≤ (k : ℚ) := by
        exact_mod_cast (by omega : (⌊(now - anchor) / gap⌋ + 1 : ℤ) ≤ k)
      have := mul_le_mul_of_nonneg_right hcast hg.le
      linarith
  · intro hml
    by_cases hc : now < anchor
    · rw [h1 hc]
      split_ifs with h3
      · linarith
      · linarith [not_lt.mp h3]
    · have h := le_of_not_lt hc
      rw [h2 h]
      have hgt' := hgt h
      split_ifs with h3
      · linarith
      · linarith [not_lt.mp h3]
  · by_cases hc : now < anchor
    · rw [h1 hc]
      split_ifs
      · exact ⟨1, by push_cast; ring⟩
      · exact ⟨0, by push_cast; ring⟩
    · have h := le_of_not_lt hc
      rw [h2 h]
      split_ifs
      · exact ⟨⌊(now - anchor) / gap⌋ + 1 + 1, by push_cast; ring⟩
      · exact ⟨⌊(now - anchor) / gap⌋ + 1, by push_cast; ring⟩

/-- C3 amended witness: the spec evaluated at anchor 0, gap 1, now 0. -/
theorem next_start_after_grid_spec_witness :
    (0 : ℚ) < 1 ∧
    (((0 : ℚ) < 0 →
      next_start_after 0 1 0 =
        if (0 : ℚ) < 0 + MIN_LEAD then (0 : ℚ) + 1 else 0) ∧
    ((0 : ℚ) ≤ 0 →
      ∃ n : ℤ, 1 ≤ n ∧ (0 : ℚ) < 0 + (n : ℚ) * 1 ∧
        (∀ k : ℤ, 1 ≤ k → (0 : ℚ) < 0 + (k : ℚ) * 1 →
          (0 : ℚ) + (n : ℚ) * 1 ≤ 0 + (k : ℚ) * 1) ∧
        next_start_after 0 1 0 =
          if (0 : ℚ) + (n : ℚ) * 1 < 0 + MIN_LEAD
          then (0 : ℚ) + (n : ℚ) * 1 + 1
          else (0 : ℚ) + (n : ℚ) * 1) ∧
    (MIN_LEAD ≤ 1 → (0 : ℚ) + MIN_LEAD ≤ next_start_after 0 1 0) ∧
    (∃ m : ℤ, next_start_after 0 1 0 = 0 + (m : ℚ) * 1)) :=
  ⟨by norm_num, next_start_after_grid_spec 0 1 0 (by norm_num)⟩

/-- C5: for every raw table with N > 0 rows, every declared AU and pose
channel key is present in the summary, bound to the arithmetic mean of
that channel's non-empty values (0.0 when there are none); the derived
keys satisfy `avg_smile = mean(AU12_r)`, `avg_furrow = mean(AU04_r)`,
`avg_mouthop = mean(AU26_r)`,
`valence_proxy = mean(AU12_r) - mean(AU04_r)`,
`arousal_proxy = mean(AU25_r) + mean(AU26_r) + mean(AU45_c)`,
`frames = N`, and `dur_s = max(0.001, t_end - t_start)`. -/
theorem summarize_nonempty_spec (table : List Row) (t tE : ℚ)
    (hN : table ≠ []) :
    (∀ k ∈ aus ++ pose,
        dget (summarize_csv (some t) tE table) k =
          some (.num (if collect table k = [] then 0
                      else (collect table k).sum / ((collect table k).length : ℚ)))) ∧
    dget (summarize_csv (some t) tE table) "avg_smile" =
      some (.num (mean (collect table "AU12_r"))) ∧
    dget (summarize_csv (some t) tE table) "avg_furrow" =
      some (.num (mean (collect table "AU04_r"))) ∧
    dget (summarize_csv (some t) tE table) "avg_mouthop" =
      some (.num (mean (collect table "AU26_r"))) ∧
    dget (summarize_csv (some t) tE table) "valence_proxy" =
      some (.num (mean (collect table "AU12_r") - mean (collect table "AU04_r"))) ∧
    dget (summarize_csv (some t) tE table) "arousal_proxy" =
      some (.num (mean (collect table "AU25_r") + mean (collect table "AU26_r")
        + mean (collect table "AU45_c"))) ∧
    dget (summarize_csv (some t) tE table) "frames" =
      some (.int (table.length : ℤ)) ∧
    dget (summarize_csv (some t) tE table) "dur_s" =
      some (.num (pymax 0.001 (tE - t))) := by
  have hlen : ¬ table.length = 0 := by
    simpa [List.length_eq_zero] using hN
  have hrw : summarize_csv (some t) tE table =
      ((aus ++ pose).map (fun k => (k, PyVal.num (mean (collect table k)))))
      ++ [("avg_smile", .num (mean (collect table "AU12_r"))),
          ("avg_furrow", .num (mean (collect table "AU04_r"))),
          ("avg_mouthop", .num (mean (collect table "AU26_r"))),
          ("valence_proxy",
            .num (mean (collect table "AU12_r") - mean (collect table "AU04_r"))),
          ("arousal_proxy",
            .num (mean (collect table "AU25_r") + mean (collect table "AU26_r")
                  + mean (collect table "AU45_c"))),
          ("frames", .int (table.length : ℤ)),
          ("dur_s", .num (durS (some t) tE))] := by
    simp only [summarize_csv, if_neg hlen]
  refine ⟨?_, ?_, ?_, ?_, ?_, ?_, ?_, ?_⟩
  · intro k hk
    rw [hrw, dget_map_append_mem _ _ _ k hk, mean]
  · rw [hrw, dget_map_append_not_mem _ _ _ _ (by decide)]
    simp +decide [dget]
  · rw [hrw, dget_map_append_not_mem _ _ _ _ (by decide)]
    simp +decide [dget]
  · rw [hrw, dget_map_append_not_mem _ _ _ _ (by decide)]
    simp +decide [dget]
  · rw [hrw, dget_map_append_not_mem _ _ _ _ (by decide)]
    simp +decide [dget]
  · rw [hrw, dget_map_append_not_mem _ _ _ _ (by decide)]
    simp +decide [dget]
  · rw [hrw, dget_map_append_not_mem _ _ _ _ (by decide)]
    simp +decide [dget]
  · rw [hrw, dget_map_append_not_mem _ _ _ _ (by decide)]
    simp +decide [dget, durS]

/-- C5 witness: the spec evaluated on the one-row table whose only
non-empty channel is AU12_r = 2, with t_start 0 and t_end 1. -/
theorem summarize_nonempty_spec_witness :
    (([fun k => if k = "AU12_r" then some (2 : ℚ) else none] : List Row) ≠ []) ∧
    ((∀ k ∈ aus ++ pose,
        dget (summarize_csv (some 0) 1
            [fun k => if k = "AU12_r" then some (2 : ℚ) else none]) k =
          some (.num (if collect [fun k => if k = "AU12_r" then some (2 : ℚ) else none] k = [] then 0
                      else (collect [fun k => if k = "AU12_r" then some (2 : ℚ) else none] k).sum /
                        ((collect [fun k => if k = "AU12_r" then some (2 : ℚ) else none] k).length : ℚ)))) ∧
    dget (summarize_csv (some 0) 1
        [fun k => if k = "AU12_r" then some (2 : ℚ) else none]) "avg_smile" =
      some (.num (mean (collect [fun k => if k = "AU12_r" then some (2 : ℚ) else none] "AU12_r"))) ∧
    dget (summarize_csv (some 0) 1
        [fun k => if k = "AU12_r" then some (2 : ℚ) else none]) "avg_furrow" =
      some (.num (mean (collect [fun k => if k = "AU12_r" then some (2 : ℚ) else none] "AU04_r"))) ∧
    dget (summarize_csv (some 0) 1
        [fun k => if k = "AU12_r" then some (2 : ℚ) else none]) "avg_mouthop" =
      some (.num (mean (collect [fun k => if k = "AU12_r" then some (2 : ℚ) else none] "AU26_r"))) ∧
    dget (summarize_csv (some 0) 1
        [fun k => if k = "AU12_r" then some (2 : ℚ) else none]) "valence_proxy" =
      some (.num (mean (collect [fun k => if k = "AU12_r" then some (2 : ℚ) else none] "AU12_r")
        - mean (collect [fun k => if k = "AU12_r" then some (2 : ℚ) else none] "AU04_r"))) ∧
    dget (summarize_csv (some 0) 1
        [fun k => if k = "AU12_r" then some (2 : ℚ) else none]) "arousal_proxy" =
      some (.num (mean (collect [fun k => if k = "AU12_r" then some (2 : ℚ) else none] "AU25_r")
        + mean (collect [fun k => if k = "AU12_r" then some (2 : ℚ) else none] "AU26_r")
        + mean (collect [fun k => if k = "AU12_r" then some (2 : ℚ) else none] "AU45_c"))) ∧
    dget (summarize_csv (some 0) 1
        [fun k => if k = "AU12_r" then some (2 : ℚ) else none]) "frames" =
      some (.int (([fun k => if k = "AU12_r" then some (2 : ℚ) else none] : List Row).length : ℤ)) ∧
    dget (summarize_csv (some 0) 1
        [fun k => if k = "AU12_r" then some (2 : ℚ) else none]) "dur_s" =
      some (.num (pymax 0.001 (1 - 0)))) :=
  ⟨List.cons_ne_nil _ _,
    summarize_nonempty_spec
      [fun k => if k = "AU12_r" then some (2 : ℚ) else none] 0 1
      (List.cons_ne_nil _ _)⟩

/-- C1 counterexample: with the code's `DEBUG = True`, a pulse whose
extraction produces a zero-row table does not surface an explicit
"empty" condition: `finish` crashes with a TypeError while formatting
the missing `dur_s` in its debug print (and only because of that crash
is no log row appended). -/
theorem finish_empty_crash_counterexample :
    (finish ⟨0, true, [], some 0, 1, true, "s", "t", "p", none⟩).result =
      .error "TypeError: unsupported format string passed to NoneType" ∧
    (finish ⟨0, true, [], some 0, 1, true, "s", "t", "p", none⟩).appended
      = false := by
  constructor <;>
    simp +decide [finish, summarize_csv, debugFmtOk, fmtF, dget]

/-- C1 amended: a zero-row extraction yields the explicitly empty
summary `{}`, which is distinguishable from a valid all-zero summary
(the summary of a one-row table with all channels empty binds every
declared channel to 0.0 and is non-empty); no log row is appended for
such a pulse, but no explicit "empty" condition is surfaced: with
`DEBUG = True` as set in the source, `finish` propagates a TypeError
raised while formatting the missing `dur_s` in the debug print. -/
theorem finish_empty_spec (tS : Option ℚ) (tE : ℚ) (sid ts src : String)
    (lf : LogFile) :
    summarize_csv tS tE [] = [] ∧
    summarize_csv tS tE [fun _ => none] ≠ [] ∧
    (∀ k ∈ aus ++ pose,
      dget (summarize_csv tS tE [fun _ => none]) k = some (.num 0)) ∧
    (finish ⟨0, true, [], tS, tE, true, sid, ts, src, lf⟩).result =
      .error "TypeError: unsupported format string passed to NoneType" ∧
    (finish ⟨0, true, [], tS, tE, true, sid, ts, src, lf⟩).appended = false ∧
    (finish ⟨0, true, [], tS, tE, true, sid, ts, src, lf⟩).logFile = lf := by
  have hone : summarize_csv tS tE [fun _ => none] =
      ((aus ++ pose).map (fun k =>
        (k, PyVal.num (mean (collect [fun _ => none] k)))))
      ++ [("avg_smile", .num (mean (collect [fun _ => none] "AU12_r"))),
          ("avg_furrow", .num (mean (collect [fun _ => none] "AU04_r"))),
          ("avg_mouthop", .num (mean (collect [fun _ => none] "AU26_r"))),
          ("valence_proxy",
            .num (mean (collect [fun _ => none] "AU12_r")
              - mean (collect [fun _ => none] "AU04_r"))),
          ("arousal_proxy",
            .num (mean (collect [fun _ => none] "AU25_r")
              + mean (collect [fun _ => none] "AU26_r")
              + mean (collect [fun _ => none] "AU45_c"))),
          ("frames", .int (([fun _ => none] : List Row).length : ℤ)),
          ("dur_s", .num (durS tS tE))] := by
    simp only [summarize_csv, List.length_cons, List.length_nil]
    norm_num
  refine ⟨rfl, ?_, ?_, ?_, ?_, ?_⟩
  · rw [hone]
    simp [aus, pose]
  · intro k hk
    rw [hone, dget_map_append_mem _ _ _ k hk]
    simp [collect, mean]
  · simp +decide [finish, summarize_csv, debugFmtOk, fmtF, dget]
  · simp +decide [finish, summarize_csv, debugFmtOk, fmtF, dget]
  · simp +decide [finish, summarize_csv, debugFmtOk, fmtF, dget]

/-- C2 counterexample: when the external extraction exits non-zero,
`finish` raises `RuntimeError` without releasing the temporary
directory, so the claimed "always releases, including when extraction
fails" is false on the code. -/
theorem finish_no_cleanup_counterexample :
    (finish ⟨1, true, [], some 0, 1, true, "s", "t", "p", none⟩).result =
      .error "RuntimeError: OpenFace failed" ∧
    (finish ⟨1, true, [], some 0, 1, true, "s", "t", "p", none⟩).tmpCleaned
      = false := by
  constructor <;> norm_num [finish]

/-- C2 amended: `finish` releases the temporary directory exactly when
it returns successfully; on extraction failure, missing output CSV, or
the debug-print TypeError the exception propagates with the temporary
directory still in place (cleanup is the last statement of the success
path, not a finally block). -/
theorem finish_cleanup_iff_success (e : FinishEnv) :
    (finish e).tmpCleaned = true ↔ ∃ s, (finish e).result = .ok s := by
  simp only [finish]
  split_ifs <;> simp

/-- C6: the first append to an absent session log writes the fixed
header row and exactly one data row; any N subsequent appends each add
exactly one data row, yielding the header plus N+1 data rows with every
previously written row unchanged (any sequence of appends extends the
existing file). -/
theorem session_log_append_spec (sid ts src : String) (s0 : Summary)
    (items : List (String × String × String × Summary)) :
    append_session_row none sid ts src s0 =
      [headerCells, renderRow (buildRow sid ts src s0)] ∧
    append_many (some (append_session_row none sid ts src s0)) items =
      some ([headerCells, renderRow (buildRow sid ts src s0)] ++
        items.map (fun i => renderRow (buildRow i.1 i.2.1 i.2.2.1 i.2.2.2))) ∧
    (∀ l, append_many (some (append_session_row none sid ts src s0)) items
        = some l → l.length = items.length + 2) ∧
    (∀ (f : List (List (Option PyVal)))
        (is : List (String × String × String × Summary)),
      ∃ tail, append_many (some f) is = some (f ++ tail)) := by
  refine ⟨rfl, ?_, ?_, ?_⟩
  · exact append_many_some items _
  · intro l hl
    rw [append_many_some items _] at hl
    injection hl with h
    rw [← h]
    simp only [List.length_append, List.length_map, List.length_cons,
      List.length_nil]
    have h2 : (append_session_row none sid ts src s0).length = 2 := rfl
    omega
  · intro f is
    exact ⟨_, append_many_some is f⟩

/-- C8 counterexample: when the camera opens successfully but the
recorder start (`pulse.start()`, which runs before the try/finally in
`run_preview`) raises, the phase propagates the exception with the
camera never released and `finish` never invoked — so on this
internal-exception exit path the handle is not released exactly once. -/
theorem run_preview_leak_counterexample :
    (run_preview ⟨true, false, 5, none, none, 6⟩).releases = 0 ∧
    (run_preview ⟨true, false, 5, none, none, 6⟩).finishCalled = false ∧
    (run_preview ⟨true, false, 5, none, none, 6⟩).ret = none :=
  ⟨rfl, rfl, rfl⟩

/-- C8 amended: on every exit path that reaches the capture loop's
try/finally — normal deadline completion, user abort via the quit key,
or an exception raised inside the loop — the camera is released exactly
once and `finish` is invoked before the phase returns; a user abort
makes the phase return False, which stops the entire schedule. An
exception in the recorder's own start, which runs after the camera open
but before the try, escapes without the release. -/
theorem run_preview_release_spec (e : PreviewEnv)
    (hc : e.camOpens = true) (hp : e.pulseStartOk = true) :
    (run_preview e).releases = 1 ∧
    (run_preview e).finishCalled = true ∧
    (loopExit e.deadlineIters e.raiseAt e.quitAt = .quit →
      (run_preview e).ret = some false) ∧
    (loopExit e.deadlineIters e.raiseAt e.quitAt = .deadline →
      (run_preview e).ret = some true) ∧
    (∀ b, (run_preview e).ret = some b →
      (schedule_step b = .stopped ↔ b = false)) := by
  have hrw : run_preview e =
      match loopExit e.deadlineIters e.raiseAt e.quitAt with
      | .deadline => ⟨some true, 0, 1, true, true⟩
      | .quit => ⟨some false, 0, 1, true, true⟩
      | .raised => ⟨none, 0, 1, true, true⟩ := by
    simp [run_preview, hc, hp]
  cases hl : loopExit e.deadlineIters e.raiseAt e.quitAt
  · rw [hl] at hrw
    rw [hrw]
    dsimp only
    refine ⟨rfl, rfl, fun h => absurd h (by decide), fun _ => rfl, ?_⟩
    intro b hb
    injection hb with h
    subst h
    decide
  · rw [hl] at hrw
    rw [hrw]
    dsimp only
    refine ⟨rfl, rfl, fun _ => rfl, fun h => absurd h (by decide), ?_⟩
    intro b hb
    injection hb with h
    subst h
    decide
  · rw [hl] at hrw
    rw [hrw]
    dsimp only
    refine ⟨rfl, rfl, fun h => absurd h (by decide),
      fun h => absurd h (by decide), ?_⟩
    intro b hb
    cases hb

/-- C8 amended witness: a run that sees the quit key at iteration 2 of
a 5-iteration deadline releases the camera once, calls `finish`,
returns False, and that False stops the schedule. -/
theorem run_preview_release_spec_witness :
    ((⟨true, true, 5, none, some 2, 6⟩ : PreviewEnv).camOpens = true) ∧
    ((⟨true, true, 5, none, some 2, 6⟩ : PreviewEnv).pulseStartOk = true) ∧
    ((run_preview ⟨true, true, 5, none, some 2, 6⟩).releases = 1 ∧
     (run_preview ⟨true, true, 5, none, some 2, 6⟩).finishCalled = true ∧
     (loopExit 5 none (some 2) = .quit →
       (run_preview ⟨true, true, 5, none, some 2, 6⟩).ret = some false) ∧
     (loopExit 5 none (some 2) = .deadline →
       (run_preview ⟨true, true, 5, none, some 2, 6⟩).ret = some true) ∧
     (∀ b, (run_preview ⟨true, true, 5, none, some 2, 6⟩).ret = some b →
       (schedule_step b = .stopped ↔ b = false))) :=
  ⟨rfl, rfl, run_preview_release_spec ⟨true, true, 5, none, some 2, 6⟩ rfl rfl⟩

/-- C10 counterexample: the classifier never reads AU14_r or AU17_r —
overriding either channel with any value never changes the
classification — refuting the claim that all six of AU07_r, AU09_r,
AU10_r, AU14_r, AU17_r, AU23_r are read by the classifier. -/
theorem classifier_ignores_au14_au17 :
    ¬ ((∃ s : Summary, ∃ v : PyVal,
          classify_expression (("AU14_r", v) :: s) ≠ classify_expression s) ∨
       (∃ s : Summary, ∃ v : PyVal,
          classify_expression (("AU17_r", v) :: s) ≠ classify_expression s)) := by
  push_neg
  refine ⟨fun s v => ?_, fun s v => ?_⟩
  · exact classify_cons_eq _ _ _ (candidates_cons_au14 v s)
  · exact classify_cons_eq _ _ _ (candidates_cons_au17 v s)

/-- C10 amended: in every row appended by the pipeline the
blink_presence_mean column is empty (the reducer never defines that
key, so the writer never populates it); the six AU channels AU07_r,
AU09_r, AU10_r, AU14_r, AU17_r, AU23_r that the reducer computes are
absent from the fixed log header and hence never persisted; of these,
the classifier reads AU07_r, AU09_r, AU10_r and AU23_r (each can change
the classification) but never reads AU14_r or AU17_r. -/
theorem log_omits_unpersisted_channels (tS : Option ℚ) (tE : ℚ)
    (table : List Row) (sid ts src lbl : String) (sc : ℚ) :
    buildRow sid ts src
      (summarize_csv tS tE table ++ [("expr", .str lbl), ("expr_score", .num sc)])
      "blink_presence_mean" = none ∧
    (∀ k ∈ (["AU07_r", "AU09_r", "AU10_r", "AU14_r", "AU17_r", "AU23_r"] :
        List String), k ∉ header ∧ k ∈ aus) ∧
    classify_expression [("AU07_r", .num 2)] ≠ classify_expression [] ∧
    classify_expression [("AU09_r", .num 2)] ≠ classify_expression [] ∧
    classify_expression [("AU10_r", .num 2)] ≠ classify_expression [] ∧
    classify_expression [("AU04_r", .num 0.9), ("AU23_r", .num 0.5)] ≠
      classify_expression [("AU04_r", .num 0.9)] := by
  have hb0 : dget (summarize_csv tS tE table) "blink_presence_mean" = none :=
    dget_summarize_none tS tE table _ (by decide) (by decide)
  have hb2 : dget (summarize_csv tS tE table
      ++ [("expr", .str lbl), ("expr_score", .num sc)]) "blink_presence_mean"
      = none := by
    rw [dget_append, hb0]
    simp +decide [dget]
  have e0 : classify_expression [] = ("neutral", 1) := by
    norm_num +decide [classify_expression, candidates, score_happy, score_sad,
      score_anger, score_surprise, score_disgust, score_neutral, AU, dget,
      PyVal.toQ, pymin, pymax, pickBest]
  have e7 : classify_expression [("AU07_r", .num 2)] = ("anger", 1) := by
    norm_num +decide [classify_expression, candidates, score_happy, score_sad,
      score_anger, score_surprise, score_disgust, score_neutral, AU, dget,
      PyVal.toQ, pymin, pymax, pickBest]
  have e9 : classify_expression [("AU09_r", .num 2)] = ("disgust", 1) := by
    norm_num +decide [classify_expression, candidates, score_happy, score_sad,
      score_anger, score_surprise, score_disgust, score_neutral, AU, dget,
      PyVal.toQ, pymin, pymax, pickBest]
  have e10 : classify_expression [("AU10_r", .num 2)] = ("disgust", 1) := by
    norm_num +decide [classify_expression, candidates, score_happy, score_sad,
      score_anger, score_surprise, score_disgust, score_neutral, AU, dget,
      PyVal.toQ, pymin, pymax, pickBest]
  have e23 : classify_expression [("AU04_r", .num 0.9), ("AU23_r", .num 0.5)]
      = ("anger", 1) := by
    norm_num +decide [classify_expression, candidates, score_happy, score_sad,
      score_anger, score_surprise, score_disgust, score_neutral, AU, dget,
      PyVal.toQ, pymin, pymax, pickBest]
  have e04 : classify_expression [("AU04_r", .num 0.9)] = ("anger", 0.9) := by
    norm_num +decide [classify_expression, candidates, score_happy, score_sad,
      score_anger, score_surprise, score_disgust, score_neutral, AU, dget,
      PyVal.toQ, pymin, pymax, pickBest]
  refine ⟨?_, ?_, ?_, ?_, ?_, ?_⟩
  · simp +decide [buildRow, hb2]
  · intro k hk
    fin_cases hk <;> exact ⟨by decide, by decide⟩
  · rw [e7, e0]
    intro h
    injection h with h1 h2
    exact absurd h1 (by decide)
  · rw [e9, e0]
    intro h
    injection h with h1 h2
    exact absurd h1 (by decide)
  · rw [e10, e0]
    intro h
    injection h with h1 h2
    exact absurd h1 (by decide)
  · rw [e23, e04]
    intro h
    injection h with h1 h2
    exact absurd h2 (by norm_num)

end MoodWatch
